import Mathlib

/-!
Shallow embedding of the WebRTC signaling service of `src/services/webrtc.ts`
(class `WebRTCService`): the in-memory room store (`Map<string, StreamRoom>`),
the socket event handlers (`create-stream`, `join-stream`, `offer`, `answer`,
`ice-candidate`, `get-active-streams`, `disconnect`) and the emitted messages,
together with theorems settling the frozen claims about this service.
-/

namespace StreamServer

/-- `interface StreamRoom` of `webrtc.ts`: broadcaster identity, viewer list
(duplicates permitted), the stream id and optional title/category. -/
structure StreamRoom where
  broadcaster : String
  viewers : List String
  streamId : String
  title : Option String
  category : Option String
deriving DecidableEq, Repr

/-- The room store `this.rooms : Map<string, StreamRoom>`, modelled as an
association list in insertion order (JS `Map` iterates in insertion order). -/
abbrev RoomsMap := List (String × StreamRoom)

/-- `Map.get`. -/
def mapGet : RoomsMap → String → Option StreamRoom
  | [], _ => none
  | p :: rest, k => if p.1 = k then some p.2 else mapGet rest k

/-- `Map.set`: overwrites in place when the key exists (keeping its insertion
position), otherwise appends at the end. -/
def mapSet : RoomsMap → String → StreamRoom → RoomsMap
  | [], k, v => [(k, v)]
  | p :: rest, k, v => if p.1 = k then (k, v) :: rest else p :: mapSet rest k v

/-- `Map.delete`: removes the entry with the given key, if present. -/
def mapDelete : RoomsMap → String → RoomsMap
  | [], _ => []
  | p :: rest, k => if p.1 = k then mapDelete rest k else p :: mapDelete rest k

/-- JavaScript `x || d` on an optional string field: `undefined`/`null`
(here `none`) and the empty string are falsy. -/
def jsOrStr (v : Option String) (d : String) : String :=
  match v with
  | none => d
  | some s => if s = "" then d else s

/-- One element of the array returned by `getActiveStreamsInfo()`. -/
structure StreamInfo where
  id : String
  title : String
  viewers : Nat
  category : String
  streamer : String
  isLive : Bool
deriving DecidableEq, Repr

/-- `getActiveStreamsInfo()`: maps each room entry to its summary snapshot. -/
def getActiveStreamsInfo (rooms : RoomsMap) : List StreamInfo :=
  rooms.map (fun p =>
    { id := p.1
      title := jsOrStr p.2.title "Untitled Stream"
      viewers := p.2.viewers.length
      category := jsOrStr p.2.category "Uncategorized"
      streamer := p.2.broadcaster
      isLive := true })

/-- Payload of an emitted socket event. -/
inductive Payload where
  | streamCreationFailed (error : String)
  | streamCreated (streamId : String)
  | errorMsg (message : String)
  | viewerJoined (userId streamId : String)
  | streamStarted (streamId userId : String)
  | offerRelay (offer userId : String)
  | answerRelay (answer userId : String)
  | iceCandidateRelay (candidate userId : String)
  | streamUpdate (info : List StreamInfo)
  | streamEnded (streamId : String)
  | activeStreams (info : List StreamInfo)
deriving DecidableEq, Repr

/-- An emission, tagged with its addressing mode:
`socket.emit` (to the one socket), `socket.to(room).emit` (room members except
the sender), `io.to(room).emit` (all room members), `io.emit` (everyone),
and the `get-active-streams` callback reply. -/
inductive Emit where
  | toSocket (socketId : String) (p : Payload)
  | toGroupExcept (room sender : String) (p : Payload)
  | toGroup (room : String) (p : Payload)
  | broadcast (p : Payload)
  | callbackReply (socketId : String) (p : Payload)
deriving DecidableEq, Repr

/-- Group membership: the set of socket.io rooms each socket has joined,
as a list of (socketId, room) pairs. -/
abbrev Groups := List (String × String)

/-- `socket.join(room)`: socket.io rooms are sets, joining twice is a no-op. -/
def groupJoin (g : Groups) (socketId room : String) : Groups :=
  if (socketId, room) ∈ g then g else g ++ [(socketId, room)]

/-- Whether an emission is delivered to connection `c`, given the group
membership at the time of the send. `socket.to(room)` excludes the sender;
`io.to(room)` does not. -/
def deliversTo (g : Groups) (c : String) : Emit → Bool
  | .toSocket sid _ => sid = c
  | .toGroupExcept room sender _ => ¬ c = sender ∧ (c, room) ∈ g
  | .toGroup room _ => (c, room) ∈ g
  | .broadcast _ => true
  | .callbackReply sid _ => sid = c

/-- Outcome of the external creator check
(`prisma.user.findUnique(...).isCreator`): allowed, denied (no user or not a
creator), or the lookup itself threw. -/
inductive AuthResult where
  | allowed
  | denied
  | lookupError
deriving DecidableEq, Repr

/-- The inbound events handled by `setupSocketHandlers`. Relay events carry
their `userId` as an option (`none` models a missing/undefined field); `some ""`
is likewise falsy under `data.userId || socket.id`. -/
inductive Event where
  | createStream (socketId streamId userId : String)
      (title category : Option String) (auth : AuthResult)
  | joinStream (socketId streamId userId : String)
  | offer (socketId streamId offerPayload : String) (userId : Option String)
  | answer (socketId streamId answerPayload : String) (userId : Option String)
  | iceCandidate (socketId streamId candidate : String) (userId : Option String)
  | getActiveStreams (socketId : String)
  | disconnect (socketId : String)
deriving DecidableEq, Repr

/-- Whole-service state: the room store and the socket.io group membership. -/
structure ServerState where
  rooms : RoomsMap
  groups : Groups
deriving DecidableEq, Repr

/-- Remove the first occurrence (the `findIndex` + `splice(viewerIndex, 1)` of
`handleDisconnect`). -/
def removeFirst : List String → String → List String
  | [], _ => []
  | x :: xs, y => if x = y then xs else x :: removeFirst xs y

/-- The body of `handleDisconnect`'s `this.rooms.forEach`: visits the entries
present when iteration starts (the handler only deletes the entry being
visited and mutates its viewer list, so the snapshot taken at the start is
what the live JS iteration sees), threading the room store through. -/
def handleDisconnectGo (socketId : String) :
    List (String × StreamRoom) → RoomsMap → RoomsMap × List Emit
  | [], rooms => (rooms, [])
  | (streamId, room) :: rest, rooms =>
    if room.broadcaster = socketId then
      let rooms1 := mapDelete rooms streamId
      let r := handleDisconnectGo socketId rest rooms1
      (r.1,
        Emit.toGroup streamId (Payload.streamEnded streamId) ::
        Emit.broadcast (Payload.streamUpdate (getActiveStreamsInfo rooms1)) ::
        r.2)
    else if socketId ∈ room.viewers then
      let room1 := { room with viewers := removeFirst room.viewers socketId }
      let rooms1 := mapSet rooms streamId room1
      let r := handleDisconnectGo socketId rest rooms1
      (r.1,
        Emit.broadcast (Payload.streamUpdate (getActiveStreamsInfo rooms1)) ::
        r.2)
    else
      handleDisconnectGo socketId rest rooms

/-- `handleDisconnect(socketId)`. -/
def handleDisconnect (socketId : String) (rooms : RoomsMap) :
    RoomsMap × List Emit :=
  handleDisconnectGo socketId rooms rooms

/-- One step of the event loop: the socket handlers of `setupSocketHandlers`,
returning the new state and the list of emissions in order. On `disconnect`
the socket has already left all of its socket.io rooms when the handler runs. -/
def step (s : ServerState) : Event → ServerState × List Emit
  | .createStream socketId streamId userId title category auth =>
    match auth with
    | .denied =>
      (s, [Emit.toSocket socketId
        (Payload.streamCreationFailed "Only approved creators can start a stream.")])
    | .lookupError =>
      (s, [Emit.toSocket socketId
        (Payload.streamCreationFailed "Failed to verify creator status.")])
    | .allowed =>
      let rooms1 := mapSet s.rooms streamId
        { broadcaster := userId, viewers := [], streamId := streamId
          title := title, category := category }
      ({ rooms := rooms1, groups := groupJoin s.groups socketId streamId },
        [Emit.toSocket socketId (Payload.streamCreated streamId),
         Emit.broadcast (Payload.streamUpdate (getActiveStreamsInfo rooms1))])
  | .joinStream socketId streamId userId =>
    match mapGet s.rooms streamId with
    | some room =>
      let rooms1 := mapSet s.rooms streamId
        { room with viewers := room.viewers ++ [userId] }
      ({ rooms := rooms1, groups := groupJoin s.groups socketId streamId },
        [Emit.toGroupExcept streamId socketId (Payload.viewerJoined userId streamId),
         Emit.toGroupExcept streamId socketId (Payload.streamStarted streamId userId),
         Emit.broadcast (Payload.streamUpdate (getActiveStreamsInfo rooms1))])
    | none =>
      (s, [Emit.toSocket socketId (Payload.errorMsg "Stream not found")])
  | .offer socketId streamId offerPayload userId =>
    (s, [Emit.toGroupExcept streamId socketId
      (Payload.offerRelay offerPayload (jsOrStr userId socketId))])
  | .answer socketId streamId answerPayload userId =>
    (s, [Emit.toGroupExcept streamId socketId
      (Payload.answerRelay answerPayload (jsOrStr userId socketId))])
  | .iceCandidate socketId streamId candidate userId =>
    (s, [Emit.toGroupExcept streamId socketId
      (Payload.iceCandidateRelay candidate (jsOrStr userId socketId))])
  | .getActiveStreams socketId =>
    (s, [Emit.callbackReply socketId
      (Payload.activeStreams (getActiveStreamsInfo s.rooms))])
  | .disconnect socketId =>
    let groups1 := s.groups.filter (fun p => ¬ p.1 = socketId)
    let r := handleDisconnect socketId s.rooms
    ({ rooms := r.1, groups := groups1 }, r.2)

/-- Run a sequence of events, concatenating the emissions. -/
def runEvents (s : ServerState) : List Event → ServerState × List Emit
  | [] => (s, [])
  | e :: es =>
    let r1 := step s e
    let r2 := runEvents r1.1 es
    (r2.1, r1.2 ++ r2.2)

/-- Well-formedness: room-store keys are distinct (a JS `Map` has unique keys
by construction; every state reachable from the empty store satisfies this). -/
def RoomsWF (rooms : RoomsMap) : Prop :=
  (rooms.map Prod.fst).Nodup

/-- The keys of the room store. -/
def roomKeys (rooms : RoomsMap) : List String :=
  rooms.map Prod.fst

/-- The payload carried by an emission, regardless of addressing mode. -/
def payloadOf : Emit → Payload
  | .toSocket _ p => p
  | .toGroupExcept _ _ p => p
  | .toGroup _ p => p
  | .broadcast p => p
  | .callbackReply _ p => p

/-- Whether an event is a `create-stream` for stream id `k` that passes the
creator check (the only kind of event that can put key `k` into the store). -/
def createsKey (k : String) : Event → Prop
  | .createStream _ streamId _ _ _ auth => streamId = k ∧ auth = .allowed
  | _ => False

/-- An emission whose `get-active-streams` callback reply (if it is one)
contains no entry with id `k`. -/
def replyLacks (k : String) : Emit → Prop
  | .callbackReply _ (Payload.activeStreams l) => ∀ info ∈ l, info.id ≠ k
  | _ => True

/-! ### Lemmas about the map primitives -/

theorem mapGet_mapSet_self (m : RoomsMap) (k : String) (v : StreamRoom) :
    mapGet (mapSet m k v) k = some v := by
  induction m with
  | nil => simp [mapSet, mapGet]
  | cons p rest ih =>
    by_cases hp : p.1 = k
    · simp [mapSet, mapGet, hp]
    · simp [mapSet, mapGet, hp, ih]

theorem mapGet_mapSet_ne (m : RoomsMap) (k k' : String) (v : StreamRoom)
    (h : ¬ k' = k) : mapGet (mapSet m k v) k' = mapGet m k' := by
  have h2 : ¬ k = k' := fun hh => h hh.symm
  induction m with
  | nil => simp [mapSet, mapGet, h2]
  | cons p rest ih =>
    by_cases hp : p.1 = k
    · have h3 : ¬ p.1 = k' := by rw [hp]; exact h2
      simp [mapSet, mapGet, hp, h2, h3]
    · by_cases hq : p.1 = k'
      · simp [mapSet, mapGet, hp, hq, h]
      · simp [mapSet, mapGet, hp, hq, ih]

theorem mapGet_mapDelete_self (m : RoomsMap) (k : String) :
    mapGet (mapDelete m k) k = none := by
  induction m with
  | nil => simp [mapDelete, mapGet]
  | cons p rest ih =>
    by_cases hp : p.1 = k
    · simp [mapDelete, hp, ih]
    · simp [mapDelete, mapGet, hp, ih]

theorem mapGet_mapDelete_ne (m : RoomsMap) (k k' : String)
    (h : ¬ k' = k) : mapGet (mapDelete m k) k' = mapGet m k' := by
  have h2 : ¬ k = k' := fun hh => h hh.symm
  induction m with
  | nil => simp [mapDelete]
  | cons p rest ih =>
    by_cases hp : p.1 = k
    · have h3 : ¬ p.1 = k' := by rw [hp]; exact fun hh => h hh.symm
      simp [mapDelete, mapGet, hp, h3, h2, ih]
    · by_cases hq : p.1 = k'
      · simp [mapDelete, mapGet, hp, hq, h]
      · simp [mapDelete, mapGet, hp, hq, ih]

theorem not_mem_roomKeys_mapSet (m : RoomsMap) (k v a)
    (h1 : a ∉ roomKeys m) (h2 : ¬ a = k) : a ∉ roomKeys (mapSet m k v) := by
  induction m with
  | nil => simpa [mapSet, roomKeys] using h2
  | cons p rest ih =>
    simp only [roomKeys, List.map_cons, List.mem_cons, not_or] at h1
    by_cases hp : p.1 = k
    · simp only [mapSet, hp, if_true, roomKeys, List.map_cons, List.mem_cons, not_or]
      exact ⟨h2, h1.2⟩
    · simp only [mapSet, hp, if_false, roomKeys, List.map_cons, List.mem_cons, not_or]
      exact ⟨h1.1, ih h1.2⟩

theorem not_mem_roomKeys_mapDelete (m : RoomsMap) (k a)
    (h1 : a ∉ roomKeys m) : a ∉ roomKeys (mapDelete m k) := by
  induction m with
  | nil => simpa [mapDelete] using h1
  | cons p rest ih =>
    simp only [roomKeys, List.map_cons, List.mem_cons, not_or] at h1
    by_cases hp : p.1 = k
    · simp only [mapDelete, hp, if_true]
      exact ih h1.2
    · simp only [mapDelete, hp, if_false, roomKeys, List.map_cons, List.mem_cons, not_or]
      exact ⟨h1.1, ih h1.2⟩

theorem roomsWF_mapSet (m : RoomsMap) (k v) (h : RoomsWF m) :
    RoomsWF (mapSet m k v) := by
  induction m with
  | nil => simp [mapSet, RoomsWF]
  | cons p rest ih =>
    simp only [RoomsWF, roomKeys, List.map_cons, List.nodup_cons] at h
    by_cases hp : p.1 = k
    · simp only [mapSet, hp, if_true, RoomsWF, List.map_cons, List.nodup_cons]
      exact ⟨hp ▸ h.1, h.2⟩
    · simp only [mapSet, hp, if_false, RoomsWF, List.map_cons, List.nodup_cons]
      refine ⟨not_mem_roomKeys_mapSet rest k v p.1 h.1 hp, ih h.2⟩

theorem mapGet_of_mem_nodup (m : RoomsMap) (k : String) (r : StreamRoom)
    (hmem : (k, r) ∈ m) (hWF : RoomsWF m) : mapGet m k = some r := by
  induction m with
  | nil => simp at hmem
  | cons p rest ih =>
    simp only [RoomsWF, roomKeys, List.map_cons, List.nodup_cons] at hWF
    rcases List.mem_cons.mp hmem with hhead | htail
    · simp [mapGet, ← hhead]
    · have hk : k ∈ rest.map Prod.fst :=
        List.mem_map.mpr ⟨(k, r), htail, rfl⟩
      have hp : ¬ p.1 = k := fun hh => hWF.1 (hh ▸ hk)
      simp only [mapGet, hp, if_false]
      exact ih htail hWF.2

theorem mapGet_eq_none_of_not_mem (m : RoomsMap) (k : String)
    (h : k ∉ roomKeys m) : mapGet m k = none := by
  induction m with
  | nil => simp [mapGet]
  | cons p rest ih =>
    simp only [roomKeys, List.map_cons, List.mem_cons, not_or] at h
    have hp : ¬ p.1 = k := fun hh => h.1 hh.symm
    simp only [mapGet, hp, if_false]
    exact ih h.2

theorem mem_roomKeys_of_mapGet (m : RoomsMap) (k : String) (r : StreamRoom)
    (h : mapGet m k = some r) : k ∈ roomKeys m := by
  induction m with
  | nil => simp [mapGet] at h
  | cons p rest ih =>
    by_cases hp : p.1 = k
    · simp [roomKeys, hp]
    · simp only [mapGet, hp, if_false] at h
      simp only [roomKeys, List.map_cons, List.mem_cons]
      exact Or.inr (ih h)

theorem removeFirst_length (l : List String) (a : String) (h : a ∈ l) :
    (removeFirst l a).length + 1 = l.length := by
  induction l with
  | nil => simp at h
  | cons x xs ih =>
    by_cases hx : x = a
    · simp [removeFirst, hx]
    · rcases List.mem_cons.mp h with hh | ht
      · exact absurd hh.symm hx
      · simp only [removeFirst, hx, if_false, List.length_cons]
        rw [← ih ht]

theorem getActiveStreamsInfo_ids (m : RoomsMap) :
    (getActiveStreamsInfo m).map StreamInfo.id = roomKeys m := by
  simp [getActiveStreamsInfo, roomKeys, List.map_map]

theorem snapshot_id_ne (m : RoomsMap) (k : String) (h : k ∉ roomKeys m) :
    ∀ info ∈ getActiveStreamsInfo m, info.id ≠ k := by
  intro info hinfo hk
  apply h
  rw [← getActiveStreamsInfo_ids]
  exact hk ▸ List.mem_map.mpr ⟨info, hinfo, rfl⟩

theorem not_mem_roomKeys_mapDelete_self (m : RoomsMap) (k : String) :
    k ∉ roomKeys (mapDelete m k) := by
  induction m with
  | nil => simp [mapDelete, roomKeys]
  | cons p rest ih =>
    by_cases hp : p.1 = k
    · simp only [mapDelete, hp, if_true]
      exact ih
    · simp only [mapDelete, hp, if_false, roomKeys, List.map_cons, List.mem_cons, not_or]
      exact ⟨fun hh => hp hh.symm, ih⟩

/-! ### Lemmas about `handleDisconnectGo` -/

theorem absentKey_go (sid k : String) :
    ∀ (entries : List (String × StreamRoom)) (rooms : RoomsMap),
    k ∉ roomKeys rooms → (∀ p ∈ entries, ¬ p.1 = k) →
    k ∉ roomKeys (handleDisconnectGo sid entries rooms).1 := by
  intro entries
  induction entries with
  | nil =>
    intro rooms h1 _
    simpa [handleDisconnectGo] using h1
  | cons p rest ih =>
    intro rooms h1 h2
    obtain ⟨k1, room⟩ := p
    have hk1 : ¬ k1 = k := h2 (k1, room) (List.mem_cons_self _ _)
    have h2' : ∀ q ∈ rest, ¬ q.1 = k :=
      fun q hq => h2 q (List.mem_cons_of_mem _ hq)
    by_cases hb : room.broadcaster = sid
    · simp only [handleDisconnectGo, hb, if_true]
      exact ih _ (not_mem_roomKeys_mapDelete _ _ _ h1) h2'
    · by_cases hv : sid ∈ room.viewers
      · simp only [handleDisconnectGo, hb, hv, if_false, if_true]
        exact ih _ (not_mem_roomKeys_mapSet _ _ _ _ h1 (fun hh => hk1 hh.symm)) h2'
      · simp only [handleDisconnectGo, hb, hv, if_false]
        exact ih _ h1 h2'

theorem broadcaster_deleted_go (sid k : String) (r : StreamRoom)
    (hb : r.broadcaster = sid) :
    ∀ (entries : List (String × StreamRoom)) (rooms : RoomsMap),
    (entries.map Prod.fst).Nodup → (k, r) ∈ entries →
    k ∉ roomKeys (handleDisconnectGo sid entries rooms).1 := by
  intro entries
  induction entries with
  | nil =>
    intro rooms _ hmem
    simp at hmem
  | cons p rest ih =>
    intro rooms hnd hmem
    obtain ⟨k1, room⟩ := p
    simp only [List.map_cons, List.nodup_cons] at hnd
    rcases List.mem_cons.mp hmem with hhead | htail
    · injection hhead with hk hr
      have hb1 : room.broadcaster = sid := by rw [← hr]; exact hb
      simp only [handleDisconnectGo, hb1, if_true]
      have hrest : ∀ q ∈ rest, ¬ q.1 = k := by
        intro q hq hqk
        have hq1 : q.1 ∈ rest.map Prod.fst := List.mem_map.mpr ⟨q, hq, rfl⟩
        rw [hqk, hk] at hq1
        exact hnd.1 hq1
      apply absentKey_go sid k rest _ _ hrest
      rw [hk]
      exact not_mem_roomKeys_mapDelete_self _ _
    · by_cases hb1 : room.broadcaster = sid
      · simp only [handleDisconnectGo, hb1, if_true]
        exact ih _ hnd.2 htail
      · by_cases hv : sid ∈ room.viewers
        · simp only [handleDisconnectGo, hb1, hv, if_false, if_true]
          exact ih _ hnd.2 htail
        · simp only [handleDisconnectGo, hb1, hv, if_false]
          exact ih _ hnd.2 htail

theorem streamEnded_count_go (sid k c : String) (g : Groups) (hg : (c, k) ∈ g) :
    ∀ (entries : List (String × StreamRoom)) (rooms : RoomsMap),
    ((handleDisconnectGo sid entries rooms).2.countP
        (fun em => deliversTo g c em && decide (payloadOf em = Payload.streamEnded k)))
      = entries.countP (fun p => decide (p.1 = k) && decide (p.2.broadcaster = sid)) := by
  intro entries
  induction entries with
  | nil =>
    intro rooms
    simp [handleDisconnectGo]
  | cons p rest ih =>
    intro rooms
    obtain ⟨k1, room⟩ := p
    by_cases hb : room.broadcaster = sid
    · simp only [handleDisconnectGo, hb, if_true, List.countP_cons, ih]
      by_cases hk1 : k1 = k
      · simp [deliversTo, payloadOf, hk1, hg, hb]
      · simp [deliversTo, payloadOf, hk1, hb]
    · by_cases hv : sid ∈ room.viewers
      · simp only [handleDisconnectGo, hb, hv, if_false, if_true, List.countP_cons, ih]
        simp [deliversTo, payloadOf, hb]
      · simp only [handleDisconnectGo, hb, hv, if_false, List.countP_cons, ih]
        simp [hb]

theorem countP_key_broadcaster (k sid : String) (r : StreamRoom)
    (hb : r.broadcaster = sid) :
    ∀ (entries : List (String × StreamRoom)),
    (entries.map Prod.fst).Nodup → (k, r) ∈ entries →
    entries.countP (fun p => decide (p.1 = k) && decide (p.2.broadcaster = sid)) = 1 := by
  intro entries
  induction entries with
  | nil =>
    intro _ hmem
    simp at hmem
  | cons p rest ih =>
    intro hnd hmem
    obtain ⟨k1, room⟩ := p
    simp only [List.map_cons, List.nodup_cons] at hnd
    rcases List.mem_cons.mp hmem with hhead | htail
    · injection hhead with hk hr
      have hb1 : room.broadcaster = sid := by rw [← hr]; exact hb
      have hrest : rest.countP
          (fun p => decide (p.1 = k) && decide (p.2.broadcaster = sid)) = 0 := by
        apply List.countP_eq_zero.mpr
        intro q hq
        have hqk : ¬ q.1 = k := by
          intro hqk
          have hq1 : q.1 ∈ rest.map Prod.fst := List.mem_map.mpr ⟨q, hq, rfl⟩
          rw [hqk, hk] at hq1
          exact hnd.1 hq1
        simp [hqk]
      simp [List.countP_cons, hk.symm, hb1, hrest]
    · have hk1 : ¬ k1 = k := by
        intro hk1
        apply hnd.1
        rw [hk1]
        exact List.mem_map.mpr ⟨(k, r), htail, rfl⟩
      simp [List.countP_cons, hk1, ih hnd.2 htail]

theorem streamUpdate_exists_go (sid k : String) (r : StreamRoom)
    (hb : r.broadcaster = sid) :
    ∀ (entries : List (String × StreamRoom)) (rooms : RoomsMap),
    (k, r) ∈ entries →
    ∃ l, Emit.broadcast (Payload.streamUpdate l) ∈ (handleDisconnectGo sid entries rooms).2 := by
  intro entries
  induction entries with
  | nil =>
    intro rooms hmem
    simp at hmem
  | cons p rest ih =>
    intro rooms hmem
    obtain ⟨k1, room⟩ := p
    rcases List.mem_cons.mp hmem with hhead | htail
    · injection hhead with hk hr
      have hb1 : room.broadcaster = sid := by rw [← hr]; exact hb
      refine ⟨getActiveStreamsInfo (mapDelete rooms k1), ?_⟩
      simp only [handleDisconnectGo, hb1, if_true]
      exact List.mem_cons_of_mem _ (List.mem_cons_self _ _)
    · by_cases hb1 : room.broadcaster = sid
      · obtain ⟨l, hl⟩ := ih _ htail
        exact ⟨l, by simp only [handleDisconnectGo, hb1, if_true]
                     exact List.mem_cons_of_mem _ (List.mem_cons_of_mem _ hl)⟩
      · by_cases hv : sid ∈ room.viewers
        · obtain ⟨l, hl⟩ := ih _ htail
          exact ⟨l, by simp only [handleDisconnectGo, hb1, hv, if_false, if_true]
                       exact List.mem_cons_of_mem _ hl⟩
        · obtain ⟨l, hl⟩ := ih _ htail
          exact ⟨l, by simp only [handleDisconnectGo, hb1, hv, if_false]
                       exact hl⟩

theorem go_replies_trivial (sid k : String) :
    ∀ (entries : List (String × StreamRoom)) (rooms : RoomsMap),
    ∀ em ∈ (handleDisconnectGo sid entries rooms).2, replyLacks k em := by
  intro entries
  induction entries with
  | nil =>
    intro rooms em hem
    simp [handleDisconnectGo] at hem
  | cons p rest ih =>
    intro rooms em hem
    obtain ⟨k1, room⟩ := p
    by_cases hb : room.broadcaster = sid
    · simp only [handleDisconnectGo, hb, if_true, List.mem_cons] at hem
      rcases hem with h | h | h
      · rw [h]; simp [replyLacks]
      · rw [h]; simp [replyLacks]
      · exact ih _ em h
    · by_cases hv : sid ∈ room.viewers
      · simp only [handleDisconnectGo, hb, hv, if_false, if_true, List.mem_cons] at hem
        rcases hem with h | h
        · rw [h]; simp [replyLacks]
        · exact ih _ em h
      · simp only [handleDisconnectGo, hb, hv, if_false] at hem
        exact ih _ em hem

/-! ### Step-level invariants -/

theorem absentKey_step (s : ServerState) (e : Event) (k : String)
    (h1 : k ∉ roomKeys s.rooms) (h2 : ¬ createsKey k e) :
    k ∉ roomKeys (step s e).1.rooms := by
  cases e with
  | createStream sid streamId uid t c auth =>
    cases auth with
    | allowed =>
      have hne : ¬ k = streamId := fun hh => h2 ⟨hh.symm, rfl⟩
      simp only [step]
      exact not_mem_roomKeys_mapSet _ _ _ _ h1 hne
    | denied => simpa [step] using h1
    | lookupError => simpa [step] using h1
  | joinStream sid streamId uid =>
    cases hm : mapGet s.rooms streamId with
    | none => simpa [step, hm] using h1
    | some room =>
      have hmem := mem_roomKeys_of_mapGet _ _ _ hm
      have hne : ¬ k = streamId := fun hh => h1 (hh ▸ hmem)
      simp only [step, hm]
      exact not_mem_roomKeys_mapSet _ _ _ _ h1 hne
  | offer sid streamId op uid => simpa [step] using h1
  | answer sid streamId ap uid => simpa [step] using h1
  | iceCandidate sid streamId cd uid => simpa [step] using h1
  | getActiveStreams sid => simpa [step] using h1
  | disconnect sid =>
    simp only [step, handleDisconnect]
    apply absentKey_go sid k s.rooms s.rooms h1
    intro p hp hpk
    exact h1 (hpk ▸ List.mem_map.mpr ⟨p, hp, rfl⟩)

theorem step_replies_lack (s : ServerState) (e : Event) (k : String)
    (h1 : k ∉ roomKeys s.rooms) :
    ∀ em ∈ (step s e).2, replyLacks k em := by
  cases e with
  | createStream sid streamId uid t c auth =>
    cases auth with
    | allowed =>
      intro em hem
      simp only [step, List.mem_cons, List.not_mem_nil, or_false] at hem
      rcases hem with h | h
      · rw [h]; simp [replyLacks]
      · rw [h]; simp [replyLacks]
    | denied =>
      intro em hem
      simp only [step, List.mem_cons, List.not_mem_nil, or_false] at hem
      rw [hem]; simp [replyLacks]
    | lookupError =>
      intro em hem
      simp only [step, List.mem_cons, List.not_mem_nil, or_false] at hem
      rw [hem]; simp [replyLacks]
  | joinStream sid streamId uid =>
    cases hm : mapGet s.rooms streamId with
    | none =>
      intro em hem
      simp only [step, hm, List.mem_cons, List.not_mem_nil, or_false] at hem
      rw [hem]; simp [replyLacks]
    | some room =>
      intro em hem
      simp only [step, hm, List.mem_cons, List.not_mem_nil, or_false] at hem
      rcases hem with h | h | h
      · rw [h]; simp [replyLacks]
      · rw [h]; simp [replyLacks]
      · rw [h]; simp [replyLacks]
  | offer sid streamId op uid =>
    intro em hem
    simp only [step, List.mem_cons, List.not_mem_nil, or_false] at hem
    rw [hem]; simp [replyLacks]
  | answer sid streamId ap uid =>
    intro em hem
    simp only [step, List.mem_cons, List.not_mem_nil, or_false] at hem
    rw [hem]; simp [replyLacks]
  | iceCandidate sid streamId cd uid =>
    intro em hem
    simp only [step, List.mem_cons, List.not_mem_nil, or_false] at hem
    rw [hem]; simp [replyLacks]
  | getActiveStreams sid =>
    intro em hem
    simp only [step, List.mem_cons, List.not_mem_nil, or_false] at hem
    rw [hem]
    simp only [replyLacks]
    exact snapshot_id_ne _ _ h1
  | disconnect sid =>
    simp only [step, handleDisconnect]
    exact go_replies_trivial sid k s.rooms s.rooms

theorem runEvents_preserves_absent (k : String) :
    ∀ (es : List Event) (s : ServerState),
    k ∉ roomKeys s.rooms → (∀ e ∈ es, ¬ createsKey k e) →
    k ∉ roomKeys (runEvents s es).1.rooms ∧
    ∀ em ∈ (runEvents s es).2, replyLacks k em := by
  intro es
  induction es with
  | nil =>
    intro s h1 _
    exact ⟨by simpa [runEvents] using h1, by simp [runEvents]⟩
  | cons e rest ih =>
    intro s h1 h2
    have h1' := absentKey_step s e k h1 (h2 e (List.mem_cons_self _ _))
    have hrec := ih (step s e).1 h1' (fun e' he' => h2 e' (List.mem_cons_of_mem _ he'))
    refine ⟨by simpa [runEvents] using hrec.1, ?_⟩
    intro em hem
    simp only [runEvents, List.mem_append] at hem
    rcases hem with h | h
    · exact step_replies_lack s e k h1 em h
    · exact hrec.2 em h

theorem go_no_match (b : String) :
    ∀ (entries : List (String × StreamRoom)) (rooms : RoomsMap),
    (∀ p ∈ entries, ¬ p.2.broadcaster = b ∧ b ∉ p.2.viewers) →
    handleDisconnectGo b entries rooms = (rooms, []) := by
  intro entries
  induction entries with
  | nil => intro rooms _; rfl
  | cons p rest ih =>
    intro rooms h
    obtain ⟨k1, room⟩ := p
    have hh := h (k1, room) (List.mem_cons_self _ _)
    simp only [handleDisconnectGo, hh.1, hh.2, if_false]
    exact ih _ (fun q hq => h q (List.mem_cons_of_mem _ hq))

theorem go_other_keys (b k : String) :
    ∀ (entries : List (String × StreamRoom)) (rooms : RoomsMap),
    (∀ p ∈ entries, ¬ p.2.broadcaster = b) →
    (∀ p ∈ entries, b ∈ p.2.viewers → p.1 = k) →
    ∀ k', ¬ k' = k →
    mapGet (handleDisconnectGo b entries rooms).1 k' = mapGet rooms k' := by
  intro entries
  induction entries with
  | nil => intro rooms _ _ k' _; rfl
  | cons p rest ih =>
    intro rooms hnb honly k' hk'
    obtain ⟨k1, room⟩ := p
    have hb1 : ¬ room.broadcaster = b := hnb _ (List.mem_cons_self _ _)
    have hnb' : ∀ q ∈ rest, ¬ q.2.broadcaster = b :=
      fun q hq => hnb q (List.mem_cons_of_mem _ hq)
    have honly' : ∀ q ∈ rest, b ∈ q.2.viewers → q.1 = k :=
      fun q hq => honly q (List.mem_cons_of_mem _ hq)
    by_cases hv : b ∈ room.viewers
    · have hk1 : k1 = k := honly _ (List.mem_cons_self _ _) hv
      have hk'1 : ¬ k' = k1 := fun hh => hk' (hh.trans hk1)
      simp only [handleDisconnectGo, hb1, hv, if_false, if_true]
      rw [ih _ hnb' honly' k' hk']
      exact mapGet_mapSet_ne _ _ _ _ hk'1
    · simp only [handleDisconnectGo, hb1, hv, if_false]
      exact ih _ hnb' honly' k' hk'

theorem go_viewer_removed (b k : String) (r : StreamRoom) (hv : b ∈ r.viewers) :
    ∀ (entries : List (String × StreamRoom)) (rooms : RoomsMap),
    (entries.map Prod.fst).Nodup → (k, r) ∈ entries →
    mapGet rooms k = some r →
    (∀ p ∈ entries, ¬ p.2.broadcaster = b) →
    (∀ p ∈ entries, b ∈ p.2.viewers → p.1 = k) →
    mapGet (handleDisconnectGo b entries rooms).1 k
      = some { r with viewers := removeFirst r.viewers b } := by
  intro entries
  induction entries with
  | nil =>
    intro rooms _ hmem
    simp at hmem
  | cons p rest ih =>
    intro rooms hnd hmem hget hnb honly
    obtain ⟨k1, room⟩ := p
    simp only [List.map_cons, List.nodup_cons] at hnd
    have hb1 : ¬ room.broadcaster = b := hnb _ (List.mem_cons_self _ _)
    rcases List.mem_cons.mp hmem with hhead | htail
    · injection hhead with hk hr
      have hv1 : b ∈ room.viewers := hr ▸ hv
      simp only [handleDisconnectGo, hb1, hv1, if_false, if_true]
      have hrest : ∀ q ∈ rest, ¬ q.2.broadcaster = b ∧ b ∉ q.2.viewers := by
        intro q hq
        refine ⟨hnb q (List.mem_cons_of_mem _ hq), ?_⟩
        intro hbv
        have hqk : q.1 = k := honly q (List.mem_cons_of_mem _ hq) hbv
        apply hnd.1
        have hq1 : q.1 ∈ rest.map Prod.fst := List.mem_map.mpr ⟨q, hq, rfl⟩
        rw [hqk, hk] at hq1
        exact hq1
      rw [go_no_match b rest _ hrest]
      rw [← hr, ← hk]
      exact mapGet_mapSet_self _ _ _
    · have hk1 : ¬ k1 = k := by
        intro hk1
        apply hnd.1
        rw [hk1]
        exact List.mem_map.mpr ⟨(k, r), htail, rfl⟩
      have hv1 : b ∉ room.viewers := by
        intro hbv
        exact hk1 (honly _ (List.mem_cons_self _ _) hbv)
      simp only [handleDisconnectGo, hb1, hv1, if_false]
      exact ih _ hnd.2 htail hget
        (fun q hq => hnb q (List.mem_cons_of_mem _ hq))
        (fun q hq => honly q (List.mem_cons_of_mem _ hq))

theorem mem_of_mapGet (m : RoomsMap) (k : String) (r : StreamRoom)
    (h : mapGet m k = some r) : (k, r) ∈ m := by
  induction m with
  | nil => simp [mapGet] at h
  | cons p rest ih =>
    by_cases hp : p.1 = k
    · simp only [mapGet, hp, if_true, Option.some.injEq] at h
      obtain ⟨a, b⟩ := p
      simp only at hp h
      rw [List.mem_cons]
      exact Or.inl (by rw [hp, h])
    · simp only [mapGet, hp, if_false] at h
      exact List.mem_cons_of_mem _ (ih h)

theorem countP_key_eq_one (k : String) (r : StreamRoom) :
    ∀ (m : RoomsMap), (m.map Prod.fst).Nodup → (k, r) ∈ m →
    m.countP (fun p => decide (p.1 = k)) = 1 := by
  intro m
  induction m with
  | nil =>
    intro _ hmem
    simp at hmem
  | cons p rest ih =>
    intro hnd hmem
    obtain ⟨k1, room⟩ := p
    simp only [List.map_cons, List.nodup_cons] at hnd
    rcases List.mem_cons.mp hmem with hhead | htail
    · injection hhead with hk _
      have hrest : rest.countP (fun p => decide (p.1 = k)) = 0 := by
        apply List.countP_eq_zero.mpr
        intro q hq
        have hqk : ¬ q.1 = k := by
          intro hqk
          have hq1 : q.1 ∈ rest.map Prod.fst := List.mem_map.mpr ⟨q, hq, rfl⟩
          rw [hqk, hk] at hq1
          exact hnd.1 hq1
        simp [hqk]
      simp [List.countP_cons, hk.symm, hrest]
    · have hk1 : ¬ k1 = k := by
        intro hk1
        apply hnd.1
        rw [hk1]
        exact List.mem_map.mpr ⟨(k, r), htail, rfl⟩
      simp [List.countP_cons, hk1, ih hnd.2 htail]

theorem snapshot_entry_of_mapGet (m : RoomsMap) (k : String) (room : StreamRoom)
    (hWF : RoomsWF m) (hget : mapGet m k = some room) :
    ∀ info ∈ getActiveStreamsInfo m, info.id = k →
      info.title = jsOrStr room.title "Untitled Stream" ∧
      info.viewers = room.viewers.length ∧
      info.category = jsOrStr room.category "Uncategorized" ∧
      info.streamer = room.broadcaster ∧
      info.isLive = true := by
  intro info hinfo hid
  obtain ⟨p, hp, hinfo'⟩ := List.mem_map.mp hinfo
  have hp1 : p.1 = k := by rw [← hid, ← hinfo']
  have hpmem : (k, p.2) ∈ m := by
    obtain ⟨a, b⟩ := p
    simp only at hp1
    rw [← hp1]
    exact hp
  have hgetp : mapGet m k = some p.2 := mapGet_of_mem_nodup _ _ _ hpmem hWF
  have hroom : p.2 = room := by
    have := hgetp.symm.trans hget
    exact Option.some.injEq .. ▸ this
  rw [← hinfo', hroom]
  exact ⟨rfl, rfl, rfl, rfl, rfl⟩

theorem joins_loop (k : String) :
    ∀ (joins : List (String × String)) (s : ServerState) (room : StreamRoom),
    RoomsWF s.rooms → mapGet s.rooms k = some room →
    ∃ room',
      mapGet (runEvents s (joins.map (fun p => Event.joinStream p.1 k p.2))).1.rooms k
        = some room' ∧
      room'.viewers.length = room.viewers.length + joins.length ∧
      RoomsWF (runEvents s (joins.map (fun p => Event.joinStream p.1 k p.2))).1.rooms := by
  intro joins
  induction joins with
  | nil =>
    intro s room hWF hget
    exact ⟨room, by simpa [runEvents] using hget, by simp,
      by simpa [runEvents] using hWF⟩
  | cons j rest ih =>
    intro s room hWF hget
    have hstep : (step s (Event.joinStream j.1 k j.2)).1.rooms
        = mapSet s.rooms k { room with viewers := room.viewers ++ [j.2] } := by
      simp [step, hget]
    have hWF1 : RoomsWF (step s (Event.joinStream j.1 k j.2)).1.rooms := by
      rw [hstep]
      exact roomsWF_mapSet _ _ _ hWF
    have hget1 : mapGet (step s (Event.joinStream j.1 k j.2)).1.rooms k
        = some { room with viewers := room.viewers ++ [j.2] } := by
      rw [hstep]
      exact mapGet_mapSet_self _ _ _
    obtain ⟨room', h1, h2, h3⟩ := ih (step s (Event.joinStream j.1 k j.2)).1 _ hWF1 hget1
    refine ⟨room', ?_, ?_, ?_⟩
    · simpa [runEvents] using h1
    · simp only [List.length_append, List.length_cons, List.length_nil] at h2
      simp only [List.map_cons, List.length_cons]
      omega
    · simpa [runEvents] using h3

/-! ### Claim theorems -/

/-- C1: for every live room, when the connection of that room's broadcaster
disconnects, the room's key is gone from the store and hence absent from every
subsequent `get-active-streams` snapshot (along any continuation that does not
recreate it with an authorized `create-stream`), exactly one `stream-ended`
notification is delivered to every remaining member of the room's group, and a
`stream-update` room-list snapshot is broadcast to all connections. -/
theorem claim_C1_broadcaster_disconnect_cleanup
    (s : ServerState) (k b : String) (r : StreamRoom)
    (hWF : RoomsWF s.rooms) (hmem : (k, r) ∈ s.rooms) (hb : r.broadcaster = b)
    (es : List Event) (hes : ∀ e ∈ es, ¬ createsKey k e) :
    k ∉ roomKeys (step s (Event.disconnect b)).1.rooms ∧
    (∀ em ∈ (runEvents (step s (Event.disconnect b)).1 es).2, replyLacks k em) ∧
    (∀ c, ¬ c = b → (c, k) ∈ s.groups →
      ((step s (Event.disconnect b)).2.countP
        (fun em => deliversTo (step s (Event.disconnect b)).1.groups c em &&
          decide (payloadOf em = Payload.streamEnded k))) = 1) ∧
    (∃ l, Emit.broadcast (Payload.streamUpdate l) ∈ (step s (Event.disconnect b)).2) := by
  have hWF' : (s.rooms.map Prod.fst).Nodup := hWF
  have habs : k ∉ roomKeys (handleDisconnectGo b s.rooms s.rooms).1 :=
    broadcaster_deleted_go b k r hb s.rooms s.rooms hWF' hmem
  have habs' : k ∉ roomKeys (step s (Event.disconnect b)).1.rooms := by
    simpa [step, handleDisconnect] using habs
  refine ⟨habs', (runEvents_preserves_absent k es _ habs' hes).2, ?_, ?_⟩
  · intro c hc hg
    have hg' : (c, k) ∈ s.groups.filter (fun p => ¬ p.1 = b) :=
      List.mem_filter.mpr ⟨hg, by simp [hc]⟩
    have hcount := streamEnded_count_go b k c _ hg' s.rooms s.rooms
    have hone := countP_key_broadcaster k b r hb s.rooms hWF' hmem
    simp only [step, handleDisconnect]
    rw [hcount, hone]
  · have hup := streamUpdate_exists_go b k r hb s.rooms s.rooms hmem
    simpa [step, handleDisconnect] using hup

/-- Witness for C1 at a concrete state: room `s1` broadcast by `A` with viewer
`B` in its group; `A` disconnects. -/
theorem claim_C1_witness :
    "s1" ∉ roomKeys (step
      ⟨[("s1", ⟨"A", ["B"], "s1", none, none⟩)], [("A", "s1"), ("B", "s1")]⟩
      (Event.disconnect "A")).1.rooms ∧
    ((step ⟨[("s1", ⟨"A", ["B"], "s1", none, none⟩)], [("A", "s1"), ("B", "s1")]⟩
        (Event.disconnect "A")).2.countP
      (fun em => deliversTo (step
          ⟨[("s1", ⟨"A", ["B"], "s1", none, none⟩)], [("A", "s1"), ("B", "s1")]⟩
          (Event.disconnect "A")).1.groups "B" em &&
        decide (payloadOf em = Payload.streamEnded "s1"))) = 1 :=
  ⟨(claim_C1_broadcaster_disconnect_cleanup
      ⟨[("s1", ⟨"A", ["B"], "s1", none, none⟩)], [("A", "s1"), ("B", "s1")]⟩
      "s1" "A" ⟨"A", ["B"], "s1", none, none⟩
      (by unfold RoomsWF; decide) (by simp) rfl [] (by simp)).1,
   (claim_C1_broadcaster_disconnect_cleanup
      ⟨[("s1", ⟨"A", ["B"], "s1", none, none⟩)], [("A", "s1"), ("B", "s1")]⟩
      "s1" "A" ⟨"A", ["B"], "s1", none, none⟩
      (by unfold RoomsWF; decide) (by simp) rfl [] (by simp)).2.2.1
    "B" (by decide) (by decide)⟩

/-- C2: when a connection that is a viewer of exactly one room (and not the
broadcaster of any room) disconnects, that room's viewer count drops by
exactly one while its broadcaster, title and category are kept, and every
other room's entry in the store is unchanged — so at most one room is
affected. -/
theorem claim_C2_viewer_disconnect_decrement
    (s : ServerState) (k b : String) (r : StreamRoom)
    (hWF : RoomsWF s.rooms) (hmem : (k, r) ∈ s.rooms) (hv : b ∈ r.viewers)
    (hnb : ∀ p ∈ s.rooms, ¬ p.2.broadcaster = b)
    (honly : ∀ p ∈ s.rooms, b ∈ p.2.viewers → p.1 = k) :
    (∃ r', mapGet (step s (Event.disconnect b)).1.rooms k = some r' ∧
      r'.viewers.length + 1 = r.viewers.length ∧
      r'.broadcaster = r.broadcaster ∧ r'.title = r.title ∧
      r'.category = r.category) ∧
    (∀ k', ¬ k' = k →
      mapGet (step s (Event.disconnect b)).1.rooms k' = mapGet s.rooms k') := by
  have hWF' : (s.rooms.map Prod.fst).Nodup := hWF
  have hget : mapGet s.rooms k = some r := mapGet_of_mem_nodup _ _ _ hmem hWF
  have h1 := go_viewer_removed b k r hv s.rooms s.rooms hWF' hmem hget hnb honly
  refine ⟨⟨{ r with viewers := removeFirst r.viewers b }, ?_, ?_, rfl, rfl, rfl⟩, ?_⟩
  · simpa [step, handleDisconnect] using h1
  · exact removeFirst_length r.viewers b hv
  · intro k' hk'
    have h2 := go_other_keys b k s.rooms s.rooms hnb honly k' hk'
    simpa [step, handleDisconnect] using h2

/-- Witness for C2: viewer `B` of room `s1` disconnects while a second room
`s2` is live; `s1` loses one viewer and `s2` is untouched. -/
theorem claim_C2_witness :
    (∃ r', mapGet (step
        ⟨[("s1", ⟨"A", ["B"], "s1", none, none⟩),
          ("s2", ⟨"C", [], "s2", none, none⟩)], [("A", "s1"), ("B", "s1")]⟩
        (Event.disconnect "B")).1.rooms "s1" = some r' ∧
      r'.viewers.length + 1 = (["B"] : List String).length ∧
      r'.broadcaster = "A" ∧ r'.title = none ∧ r'.category = none) ∧
    (∀ k', ¬ k' = "s1" →
      mapGet (step
        ⟨[("s1", ⟨"A", ["B"], "s1", none, none⟩),
          ("s2", ⟨"C", [], "s2", none, none⟩)], [("A", "s1"), ("B", "s1")]⟩
        (Event.disconnect "B")).1.rooms k'
      = mapGet [("s1", ⟨"A", ["B"], "s1", none, none⟩),
          ("s2", ⟨"C", [], "s2", none, none⟩)] k') :=
  claim_C2_viewer_disconnect_decrement
    ⟨[("s1", ⟨"A", ["B"], "s1", none, none⟩),
      ("s2", ⟨"C", [], "s2", none, none⟩)], [("A", "s1"), ("B", "s1")]⟩
    "s1" "B" ⟨"A", ["B"], "s1", none, none⟩
    (by unfold RoomsWF; decide) (by simp) (by decide)
    (by decide) (by decide)

/-- C3: a `create-stream` request whose identity fails the creator check
(denied or lookup error) leaves the whole state unchanged, emits exactly one
`stream-creation-failed` rejection to the requester, and — as long as no
later authorized `create-stream` uses that id — the requested stream id stays
out of the store and out of every `get-active-streams` reply. -/
theorem claim_C3_unauthorized_create_rejected
    (s : ServerState) (sid k uid : String) (t c : Option String)
    (auth : AuthResult) (hauth : ¬ auth = AuthResult.allowed)
    (habs : k ∉ roomKeys s.rooms)
    (es : List Event) (hes : ∀ e ∈ es, ¬ createsKey k e) :
    (step s (Event.createStream sid k uid t c auth)).1 = s ∧
    (∃ msg, (step s (Event.createStream sid k uid t c auth)).2
      = [Emit.toSocket sid (Payload.streamCreationFailed msg)]) ∧
    (∀ em ∈ (runEvents s es).2, replyLacks k em) ∧
    k ∉ roomKeys (runEvents s es).1.rooms := by
  have hrun := runEvents_preserves_absent k es s habs hes
  cases auth with
  | allowed => exact absurd rfl hauth
  | denied => exact ⟨rfl, ⟨_, rfl⟩, hrun.2, hrun.1⟩
  | lookupError => exact ⟨rfl, ⟨_, rfl⟩, hrun.2, hrun.1⟩

/-- Witness for C3: a denied `create-stream` on an empty store changes
nothing, and a later `get-active-streams` never shows the id. -/
theorem claim_C3_witness :
    (step ⟨[], []⟩ (Event.createStream "X" "s1" "U" none none AuthResult.denied)).1
      = (⟨[], []⟩ : ServerState) ∧
    "s1" ∉ roomKeys (runEvents ⟨[], []⟩ [Event.getActiveStreams "X"]).1.rooms :=
  ⟨(claim_C3_unauthorized_create_rejected ⟨[], []⟩ "X" "s1" "U" none none
      AuthResult.denied (by decide) (by simp [roomKeys])
      [Event.getActiveStreams "X"] (by simp [createsKey])).1,
   (claim_C3_unauthorized_create_rejected ⟨[], []⟩ "X" "s1" "U" none none
      AuthResult.denied (by decide) (by simp [roomKeys])
      [Event.getActiveStreams "X"] (by simp [createsKey])).2.2.2⟩

/-- C4: after an authorized `create-stream` for id `k` followed by any number
of `join-stream` requests for `k` (all of which succeed), the store holds a
room for `k` whose viewer count equals the number of joins, and every entry
with id `k` in the `get-active-streams` snapshot reports that count. -/
theorem claim_C4_join_count
    (s : ServerState) (hWF : RoomsWF s.rooms)
    (sid k uid : String) (t c : Option String)
    (joins : List (String × String)) :
    ∃ room',
      mapGet (runEvents s (Event.createStream sid k uid t c AuthResult.allowed ::
          joins.map (fun p => Event.joinStream p.1 k p.2))).1.rooms k
        = some room' ∧
      room'.viewers.length = joins.length ∧
      (∀ info ∈ getActiveStreamsInfo
          (runEvents s (Event.createStream sid k uid t c AuthResult.allowed ::
            joins.map (fun p => Event.joinStream p.1 k p.2))).1.rooms,
        info.id = k → info.viewers = joins.length) ∧
      (∃ info ∈ getActiveStreamsInfo
          (runEvents s (Event.createStream sid k uid t c AuthResult.allowed ::
            joins.map (fun p => Event.joinStream p.1 k p.2))).1.rooms,
        info.id = k ∧ info.viewers = joins.length) := by
  have hstep : (step s (Event.createStream sid k uid t c AuthResult.allowed)).1.rooms
      = mapSet s.rooms k ⟨uid, [], k, t, c⟩ := by
    simp [step]
  have hWF1 : RoomsWF (step s (Event.createStream sid k uid t c AuthResult.allowed)).1.rooms := by
    rw [hstep]
    exact roomsWF_mapSet _ _ _ hWF
  have hget1 : mapGet (step s (Event.createStream sid k uid t c AuthResult.allowed)).1.rooms k
      = some ⟨uid, [], k, t, c⟩ := by
    rw [hstep]
    exact mapGet_mapSet_self _ _ _
  obtain ⟨room', h1, h2, h3⟩ :=
    joins_loop k joins (step s (Event.createStream sid k uid t c AuthResult.allowed)).1
      ⟨uid, [], k, t, c⟩ hWF1 hget1
  have h1' : mapGet (runEvents s (Event.createStream sid k uid t c AuthResult.allowed ::
      joins.map (fun p => Event.joinStream p.1 k p.2))).1.rooms k = some room' := by
    simpa [runEvents] using h1
  have h2' : room'.viewers.length = joins.length := by
    simpa using h2
  have hWF' : RoomsWF (runEvents s (Event.createStream sid k uid t c AuthResult.allowed ::
      joins.map (fun p => Event.joinStream p.1 k p.2))).1.rooms := by
    simpa [runEvents] using h3
  refine ⟨room', h1', h2', ?_, ?_⟩
  · intro info hinfo hid
    have := snapshot_entry_of_mapGet _ _ _ hWF' h1' info hinfo hid
    rw [this.2.1, h2']
  · have hmem := mem_of_mapGet _ _ _ h1'
    refine ⟨_, List.mem_map.mpr ⟨(k, room'), hmem, rfl⟩, rfl, ?_⟩
    simpa using h2'

/-- Witness for C4: create `s1` then two joins; snapshot count is 2. -/
theorem claim_C4_witness :
    ∃ room',
      mapGet (runEvents ⟨[], []⟩
          (Event.createStream "A" "s1" "A" none none AuthResult.allowed ::
            [("B", "B"), ("C", "C")].map
              (fun p => Event.joinStream p.1 "s1" p.2))).1.rooms "s1"
        = some room' ∧
      room'.viewers.length = ([("B", "B"), ("C", "C")] : List (String × String)).length ∧
      (∀ info ∈ getActiveStreamsInfo
          (runEvents ⟨[], []⟩
            (Event.createStream "A" "s1" "A" none none AuthResult.allowed ::
              [("B", "B"), ("C", "C")].map
                (fun p => Event.joinStream p.1 "s1" p.2))).1.rooms,
        info.id = "s1" →
          info.viewers = ([("B", "B"), ("C", "C")] : List (String × String)).length) ∧
      (∃ info ∈ getActiveStreamsInfo
          (runEvents ⟨[], []⟩
            (Event.createStream "A" "s1" "A" none none AuthResult.allowed ::
              [("B", "B"), ("C", "C")].map
                (fun p => Event.joinStream p.1 "s1" p.2))).1.rooms,
        info.id = "s1" ∧
          info.viewers = ([("B", "B"), ("C", "C")] : List (String × String)).length) :=
  claim_C4_join_count ⟨[], []⟩ (by unfold RoomsWF; decide) "A" "s1" "A" none none
    [("B", "B"), ("C", "C")]

/-- C5: relaying an `offer`, `answer` or `ice-candidate` produces exactly one
group emission that is never delivered back to the sending connection and is
delivered to every other connection in that stream's group at the time of the
send. -/
theorem claim_C5_relay_no_echo
    (s : ServerState) (sid k pl : String) (uid : Option String) :
    ((step s (Event.offer sid k pl uid)).2
        = [Emit.toGroupExcept k sid (Payload.offerRelay pl (jsOrStr uid sid))] ∧
      (∀ em ∈ (step s (Event.offer sid k pl uid)).2,
        deliversTo s.groups sid em = false) ∧
      (∀ c, ¬ c = sid → (c, k) ∈ s.groups →
        ∀ em ∈ (step s (Event.offer sid k pl uid)).2,
          deliversTo s.groups c em = true)) ∧
    ((step s (Event.answer sid k pl uid)).2
        = [Emit.toGroupExcept k sid (Payload.answerRelay pl (jsOrStr uid sid))] ∧
      (∀ em ∈ (step s (Event.answer sid k pl uid)).2,
        deliversTo s.groups sid em = false) ∧
      (∀ c, ¬ c = sid → (c, k) ∈ s.groups →
        ∀ em ∈ (step s (Event.answer sid k pl uid)).2,
          deliversTo s.groups c em = true)) ∧
    ((step s (Event.iceCandidate sid k pl uid)).2
        = [Emit.toGroupExcept k sid (Payload.iceCandidateRelay pl (jsOrStr uid sid))] ∧
      (∀ em ∈ (step s (Event.iceCandidate sid k pl uid)).2,
        deliversTo s.groups sid em = false) ∧
      (∀ c, ¬ c = sid → (c, k) ∈ s.groups →
        ∀ em ∈ (step s (Event.iceCandidate sid k pl uid)).2,
          deliversTo s.groups c em = true)) := by
  refine ⟨⟨rfl, ?_, ?_⟩, ⟨rfl, ?_, ?_⟩, ⟨rfl, ?_, ?_⟩⟩ <;>
    first
    | (intro em hem
       simp only [step, List.mem_cons, List.not_mem_nil, or_false] at hem
       rw [hem]
       simp [deliversTo])
    | (intro c hc hg em hem
       simp only [step, List.mem_cons, List.not_mem_nil, or_false] at hem
       rw [hem]
       simp [deliversTo, hc, hg])

/-- Witness for C5: `B` sends an offer for `s1`; the relay reaches member `A`
and never `B` itself. -/
theorem claim_C5_witness :
    deliversTo [("A", "s1"), ("B", "s1")] "B"
      (Emit.toGroupExcept "s1" "B" (Payload.offerRelay "o" "B")) = false ∧
    deliversTo [("A", "s1"), ("B", "s1")] "A"
      (Emit.toGroupExcept "s1" "B" (Payload.offerRelay "o" "B")) = true :=
  ⟨(claim_C5_relay_no_echo ⟨[], [("A", "s1"), ("B", "s1")]⟩ "B" "s1" "o" none).1.2.1
      _ (by simp [step, jsOrStr]),
   (claim_C5_relay_no_echo ⟨[], [("A", "s1"), ("B", "s1")]⟩ "B" "s1" "o" none).1.2.2
      "A" (by decide) (by decide) _ (by simp [step, jsOrStr])⟩

/-- C6: an authorized `create-stream` always succeeds: afterwards the store
maps the id to a room with the requester's user id as broadcaster, the given
title and category and an empty viewer list — unconditionally overwriting any
pre-existing room under that id — while all other keys are untouched. -/
theorem claim_C6_create_overwrites
    (s : ServerState) (sid k uid : String) (t c : Option String) :
    mapGet (step s (Event.createStream sid k uid t c AuthResult.allowed)).1.rooms k
      = some ⟨uid, [], k, t, c⟩ ∧
    (∀ k', ¬ k' = k →
      mapGet (step s (Event.createStream sid k uid t c AuthResult.allowed)).1.rooms k'
        = mapGet s.rooms k') ∧
    (step s (Event.createStream sid k uid t c AuthResult.allowed)).2
      = [Emit.toSocket sid (Payload.streamCreated k),
         Emit.broadcast (Payload.streamUpdate (getActiveStreamsInfo
           (mapSet s.rooms k ⟨uid, [], k, t, c⟩)))] := by
  refine ⟨?_, ?_, rfl⟩
  · simpa [step] using mapGet_mapSet_self s.rooms k ⟨uid, [], k, t, c⟩
  · intro k' hk'
    simpa [step] using mapGet_mapSet_ne s.rooms k k' ⟨uid, [], k, t, c⟩ hk'

/-- Witness for C6: creating `s1` over an existing `s1` room replaces it
(last writer wins) and leaves `s2` unchanged. -/
theorem claim_C6_witness :
    mapGet (step
      ⟨[("s1", ⟨"OLD", ["V"], "s1", some "Old", none⟩),
        ("s2", ⟨"C2", [], "s2", none, none⟩)], []⟩
      (Event.createStream "A" "s1" "A" (some "T") (some "Cat")
        AuthResult.allowed)).1.rooms "s1"
      = some ⟨"A", [], "s1", some "T", some "Cat"⟩ ∧
    mapGet (step
      ⟨[("s1", ⟨"OLD", ["V"], "s1", some "Old", none⟩),
        ("s2", ⟨"C2", [], "s2", none, none⟩)], []⟩
      (Event.createStream "A" "s1" "A" (some "T") (some "Cat")
        AuthResult.allowed)).1.rooms "s2"
      = mapGet [("s1", ⟨"OLD", ["V"], "s1", some "Old", none⟩),
          ("s2", ⟨"C2", [], "s2", none, none⟩)] "s2" :=
  ⟨(claim_C6_create_overwrites
      ⟨[("s1", ⟨"OLD", ["V"], "s1", some "Old", none⟩),
        ("s2", ⟨"C2", [], "s2", none, none⟩)], []⟩
      "A" "s1" "A" (some "T") (some "Cat")).1,
   (claim_C6_create_overwrites
      ⟨[("s1", ⟨"OLD", ["V"], "s1", some "Old", none⟩),
        ("s2", ⟨"C2", [], "s2", none, none⟩)], []⟩
      "A" "s1" "A" (some "T") (some "Cat")).2.1 "s2" (by decide)⟩

/-- C7: a `join-stream` naming an id with no room leaves the whole state
unchanged, emits exactly one error event, and that event is delivered to the
requesting connection only (in particular, no broadcast reaches others). -/
theorem claim_C7_join_not_found
    (s : ServerState) (sid k uid : String) (h : mapGet s.rooms k = none) :
    step s (Event.joinStream sid k uid)
      = (s, [Emit.toSocket sid (Payload.errorMsg "Stream not found")]) ∧
    (∀ c, ¬ c = sid →
      deliversTo s.groups c
        (Emit.toSocket sid (Payload.errorMsg "Stream not found")) = false) := by
  refine ⟨by simp [step, h], ?_⟩
  intro c hc
  simp only [deliversTo]
  simp
  exact fun hh => hc hh.symm

/-- Witness for C7: joining the unknown stream `nope` on an empty store. -/
theorem claim_C7_witness :
    step ⟨[], [("Z", "other")]⟩ (Event.joinStream "B" "nope" "B")
      = (⟨[], [("Z", "other")]⟩,
         [Emit.toSocket "B" (Payload.errorMsg "Stream not found")]) ∧
    deliversTo [("Z", "other")] "Z"
      (Emit.toSocket "B" (Payload.errorMsg "Stream not found")) = false :=
  ⟨(claim_C7_join_not_found ⟨[], [("Z", "other")]⟩ "B" "nope" "B" rfl).1,
   (claim_C7_join_not_found ⟨[], [("Z", "other")]⟩ "B" "nope" "B" rfl).2
     "Z" (by decide)⟩

/-- C8: for every room in a well-formed store, the summary snapshot holds
exactly one entry with that room's id; its title defaults to
"Untitled Stream" when the room has none, its category defaults to
"Uncategorized" when the room has none, its viewer count is the viewer-list
length, its streamer is the room's broadcaster, and `isLive` is true. -/
theorem claim_C8_snapshot_shape
    (rooms : RoomsMap) (k : String) (r : StreamRoom)
    (hWF : RoomsWF rooms) (hmem : (k, r) ∈ rooms) :
    (getActiveStreamsInfo rooms).countP (fun i => decide (i.id = k)) = 1 ∧
    ∀ info ∈ getActiveStreamsInfo rooms, info.id = k →
      (r.title = none → info.title = "Untitled Stream") ∧
      (r.category = none → info.category = "Uncategorized") ∧
      info.viewers = r.viewers.length ∧
      info.streamer = r.broadcaster ∧
      info.isLive = true := by
  have hWF' : (rooms.map Prod.fst).Nodup := hWF
  constructor
  · have hmap : (getActiveStreamsInfo rooms).countP (fun i => decide (i.id = k))
        = rooms.countP (fun p => decide (p.1 = k)) := by
      simp only [getActiveStreamsInfo, List.countP_map]
      rfl
    rw [hmap]
    exact countP_key_eq_one k r rooms hWF' hmem
  · intro info hinfo hid
    have hget : mapGet rooms k = some r := mapGet_of_mem_nodup _ _ _ hmem hWF
    have h := snapshot_entry_of_mapGet _ _ _ hWF hget info hinfo hid
    refine ⟨?_, ?_, h.2.1, h.2.2.2.1, h.2.2.2.2⟩
    · intro ht
      rw [h.1, ht]
      rfl
    · intro hc
      rw [h.2.2.1, hc]
      rfl

/-- Witness for C8: a single room with no title or category and two viewers. -/
theorem claim_C8_witness :
    (getActiveStreamsInfo [("s1", ⟨"A", ["B", "C"], "s1", none, none⟩)]).countP
      (fun i => decide (i.id = "s1")) = 1 ∧
    (⟨"s1", "Untitled Stream", 2, "Uncategorized", "A", true⟩ : StreamInfo).title
      = "Untitled Stream" ∧
    (⟨"s1", "Untitled Stream", 2, "Uncategorized", "A", true⟩ : StreamInfo).viewers
      = (["B", "C"] : List String).length :=
  ⟨(claim_C8_snapshot_shape [("s1", ⟨"A", ["B", "C"], "s1", none, none⟩)]
      "s1" ⟨"A", ["B", "C"], "s1", none, none⟩
      (by unfold RoomsWF; decide) (by simp)).1,
   ((claim_C8_snapshot_shape [("s1", ⟨"A", ["B", "C"], "s1", none, none⟩)]
      "s1" ⟨"A", ["B", "C"], "s1", none, none⟩
      (by unfold RoomsWF; decide) (by simp)).2
      ⟨"s1", "Untitled Stream", 2, "Uncategorized", "A", true⟩
      (by simp [getActiveStreamsInfo, jsOrStr]) rfl).1 rfl,
   ((claim_C8_snapshot_shape [("s1", ⟨"A", ["B", "C"], "s1", none, none⟩)]
      "s1" ⟨"A", ["B", "C"], "s1", none, none⟩
      (by unfold RoomsWF; decide) (by simp)).2
      ⟨"s1", "Untitled Stream", 2, "Uncategorized", "A", true⟩
      (by simp [getActiveStreamsInfo, jsOrStr]) rfl).2.2.1⟩

/-- C9: `get-active-streams` changes no state, and two consecutive requests
with nothing in between return the identical snapshot. -/
theorem claim_C9_get_active_streams_idempotent (s : ServerState) (a b : String) :
    (step s (Event.getActiveStreams a)).1 = s ∧
    (step (step s (Event.getActiveStreams a)).1 (Event.getActiveStreams b)).1 = s ∧
    (step s (Event.getActiveStreams a)).2
      = [Emit.callbackReply a (Payload.activeStreams (getActiveStreamsInfo s.rooms))] ∧
    (step (step s (Event.getActiveStreams a)).1 (Event.getActiveStreams b)).2
      = [Emit.callbackReply b (Payload.activeStreams (getActiveStreamsInfo s.rooms))] :=
  ⟨rfl, rfl, rfl, rfl⟩

/-- C10: when a relay payload's `userId` is missing or otherwise falsy, the
relayed event carries the sender's connection id as `userId` instead. -/
theorem claim_C10_relay_userId_defaults
    (s : ServerState) (sid k pl : String) (uid : Option String)
    (h : uid = none ∨ uid = some "") :
    (step s (Event.offer sid k pl uid)).2
      = [Emit.toGroupExcept k sid (Payload.offerRelay pl sid)] ∧
    (step s (Event.answer sid k pl uid)).2
      = [Emit.toGroupExcept k sid (Payload.answerRelay pl sid)] ∧
    (step s (Event.iceCandidate sid k pl uid)).2
      = [Emit.toGroupExcept k sid (Payload.iceCandidateRelay pl sid)] := by
  have hj : jsOrStr uid sid = sid := by
    rcases h with h | h <;> rw [h] <;> rfl
  exact ⟨by simp [step, hj], by simp [step, hj], by simp [step, hj]⟩

/-- Witness for C10: an empty-string `userId` is replaced by the sender's
connection id `B`. -/
theorem claim_C10_witness :
    (step ⟨[], []⟩ (Event.offer "B" "s1" "o" (some ""))).2
      = [Emit.toGroupExcept "s1" "B" (Payload.offerRelay "o" "B")] ∧
    (step ⟨[], []⟩ (Event.answer "B" "s1" "a" (some ""))).2
      = [Emit.toGroupExcept "s1" "B" (Payload.answerRelay "a" "B")] ∧
    (step ⟨[], []⟩ (Event.iceCandidate "B" "s1" "c" (some ""))).2
      = [Emit.toGroupExcept "s1" "B" (Payload.iceCandidateRelay "c" "B")] :=
  ⟨(claim_C10_relay_userId_defaults ⟨[], []⟩ "B" "s1" "o" (some "") (Or.inr rfl)).1,
   (claim_C10_relay_userId_defaults ⟨[], []⟩ "B" "s1" "a" (some "") (Or.inr rfl)).2.1,
   (claim_C10_relay_userId_defaults ⟨[], []⟩ "B" "s1" "c" (some "") (Or.inr rfl)).2.2⟩

end StreamServer
